import Mathlib

/-!
Verification of the prompt-mining boilerplate's authorization-and-submission
pipeline, shallowly embedded in Lean 4.

The embedding follows the TypeScript sources:
  src/utils/crypto.ts        : hashPrompt, encodeActivityPoints, hex helpers
  src/services/nonceManager.ts : per-chain nonce allocation
  src/services/pzeroAuthService.ts : retryWithBackoff, handlePZeroApiError,
                                     requestMintAuthorization
  src/services/promptMiningService.ts : getPromptStatus, mintPromptForUser,
                                        getSignableMintData
  src/services/blockchainService.ts : getTypedDataForMetaTxMint, executeMetaTxMint

External library calls (ethers.keccak256, ethers.toUtf8Bytes, the ABI coder)
are embedded by their documented algorithms (Keccak-256, UTF-8, the Solidity
ABI head/tail encoding), so every definition is executable.
Bytes are modelled as natural numbers below 256; machine words as naturals
reduced mod 2^64 where overflow matters.
-/

namespace PromptMining

/-! ## Bytes, hex strings and 64-bit words -/

/-- One byte as lanes of a hex pair: the high and low nibble characters.
ethers hex output is lowercase, `0`-`9` then `a`-`f`. -/
def hexDigitChar (n : Nat) : Char :=
  if n < 10 then Char.ofNat (48 + n) else Char.ofNat (87 + n)

/-- Two lowercase hex characters for one byte. -/
def byteToHex (b : Nat) : List Char :=
  [hexDigitChar (b / 16), hexDigitChar (b % 16)]

/-- Hex characters for a byte list. -/
def bytesToHex (bs : List Nat) : List Char :=
  bs.flatMap byteToHex

/-- The 0x-prefixed lowercase hex string ethers produces for a byte list. -/
def hexlify (bs : List Nat) : String :=
  String.mk ('0' :: 'x' :: bytesToHex bs)

/-- Numeric value of one hex character (upper or lower case). -/
def hexVal (c : Char) : Option Nat :=
  let n := c.toNat
  if 48 ≤ n ∧ n ≤ 57 then some (n - 48)
  else if 97 ≤ n ∧ n ≤ 102 then some (n - 87)
  else if 65 ≤ n ∧ n ≤ 70 then some (n - 55)
  else none

/-- Parse pairs of hex characters back into bytes. -/
def hexToBytes : List Char → Option (List Nat)
  | [] => some []
  | [_] => none
  | hi :: lo :: rest =>
    match hexVal hi, hexVal lo, hexToBytes rest with
    | some a, some b, some bs => some ((16 * a + b) :: bs)
    | _, _, _ => none

/-! ## Keccak-256 (the algorithm behind ethers.keccak256) -/

/-- 64-bit left rotation on a word already below 2^64. -/
def rotl64 (x n : Nat) : Nat :=
  ((x <<< n) % 2 ^ 64) ||| (x >>> (64 - n))

/-- Lane read with default 0 (the state is a 25-lane list). -/
def lane (st : List Nat) (i : Nat) : Nat := st.getD i 0

/-- Keccak rho rotation offsets, indexed x + 5y, one row of the 5 times 5
lane grid per bracket. -/
def rhoOffsets : List Nat :=
  [0, 1, 62, 28, 27] ++ [36, 44, 6, 55, 20] ++ [3, 10, 43, 25, 39] ++
    [41, 45, 15, 21, 8] ++ [18, 2, 61, 56, 14]

/-- Keccak round constants for the 24 rounds of keccak-f[1600], written in
decimal, four rounds per bracket. -/
def roundConstants : List Nat :=
  [1, 32898, 9223372036854808714, 9223372039002292224] ++
    [32907, 2147483649, 9223372039002292353, 9223372036854808585] ++
    [138, 136, 2147516425, 2147483658] ++
    [2147516555, 9223372036854775947, 9223372036854808713, 9223372036854808579] ++
    [9223372036854808578, 9223372036854775936, 32778, 9223372039002259466] ++
    [9223372039002292353, 9223372036854808704, 2147483649, 9223372039002292232]

/-- Theta step. -/
def theta (st : List Nat) : List Nat :=
  let c := fun x =>
    lane st x ^^^ lane st (x + 5) ^^^ lane st (x + 10) ^^^ lane st (x + 15) ^^^
      lane st (x + 20)
  let d := fun x => c ((x + 4) % 5) ^^^ rotl64 (c ((x + 1) % 5)) 1
  (List.range 25).map fun i => lane st i ^^^ d (i % 5)

/-- Combined rho and pi steps. -/
def rhoPi (st : List Nat) : List Nat :=
  (List.range 25).foldl
    (fun acc i =>
      let x := i % 5
      let y := i / 5
      let j := y + 5 * ((2 * x + 3 * y) % 5)
      acc.set j (rotl64 (lane st i) (rhoOffsets.getD i 0)))
    (List.replicate 25 0)

/-- Chi step; complement is taken within 64 bits. -/
def chi (st : List Nat) : List Nat :=
  (List.range 25).map fun i =>
    let x := i % 5
    let y := i / 5
    lane st i ^^^
      (((2 ^ 64 - 1) ^^^ lane st ((x + 1) % 5 + 5 * y)) &&& lane st ((x + 2) % 5 + 5 * y))

/-- Iota step for a given round. -/
def iota (round : Nat) (st : List Nat) : List Nat :=
  st.set 0 (lane st 0 ^^^ roundConstants.getD round 0)

/-- The keccak-f[1600] permutation. -/
def keccakF (st : List Nat) : List Nat :=
  (List.range 24).foldl (fun s r => iota r (chi (rhoPi (theta s)))) st

/-- Little-endian read of a lane from 8 bytes. -/
def laneOfBytes (bs : List Nat) : Nat :=
  bs.foldr (fun b acc => b + 256 * acc) 0

/-- Little-endian write of a lane as 8 bytes. -/
def laneToBytes (x : Nat) : List Nat :=
  [x % 256, x / 2 ^ 8 % 256, x / 2 ^ 16 % 256, x / 2 ^ 24 % 256,
   x / 2 ^ 32 % 256, x / 2 ^ 40 % 256, x / 2 ^ 48 % 256, x / 2 ^ 56 % 256]

/-- XOR one 136-byte rate block into the first 17 lanes. -/
def xorBlock (st : List Nat) (block : List Nat) : List Nat :=
  (List.range 25).map fun i =>
    if i < 17 then lane st i ^^^ laneOfBytes ((block.drop (8 * i)).take 8) else lane st i

/-- Absorb a padded message (length a multiple of 136) into the sponge. -/
def absorb (st : List Nat) (bytes : List Nat) : List Nat :=
  if h : bytes = [] then st
  else absorb (keccakF (xorBlock st (bytes.take 136))) (bytes.drop 136)
termination_by bytes.length
decreasing_by
  have : bytes.length ≠ 0 := fun hl => h (List.eq_nil_of_length_eq_zero hl)
  simp
  omega

/-- Keccak-256 of a byte list: pad with the 0x01 … 0x80 domain bytes to a
multiple of the 136-byte rate, absorb, and squeeze the first 32 bytes. -/
def keccak256 (msg : List Nat) : List Nat :=
  let q := 136 - msg.length % 136
  let padded :=
    if q = 1 then msg ++ [0x81]
    else msg ++ [0x01] ++ List.replicate (q - 2) 0 ++ [0x80]
  let st := absorb (List.replicate 25 0) padded
  laneToBytes (lane st 0) ++ laneToBytes (lane st 1) ++ laneToBytes (lane st 2) ++
    laneToBytes (lane st 3)

/-- Keccak-256 as a 0x-prefixed hex string, the shape ethers.keccak256 returns
for arbitrary byte input. -/
def keccak256Hex (msg : List Nat) : String :=
  hexlify (keccak256 msg)

/-! ## UTF-8 (the algorithm behind ethers.toUtf8Bytes) -/

/-- Standard UTF-8 encoding of one Unicode scalar value. -/
def utf8EncodeChar (c : Char) : List Nat :=
  let v := c.toNat
  if v < 0x80 then [v]
  else if v < 0x800 then [0xC0 ||| (v >>> 6), 0x80 ||| (v &&& 0x3F)]
  else if v < 0x10000 then
    [0xE0 ||| (v >>> 12), 0x80 ||| ((v >>> 6) &&& 0x3F), 0x80 ||| (v &&& 0x3F)]
  else
    [0xF0 ||| (v >>> 18), 0x80 ||| ((v >>> 12) &&& 0x3F), 0x80 ||| ((v >>> 6) &&& 0x3F),
     0x80 ||| (v &&& 0x3F)]

/-- UTF-8 bytes of a string (ethers.toUtf8Bytes). -/
def utf8Encode (s : String) : List Nat :=
  s.data.flatMap utf8EncodeChar

/-! ## hashPrompt (src/utils/crypto.ts) -/

/-- hashPrompt: convert the prompt to UTF-8 bytes and keccak256-hash them,
returning the 0x-prefixed hex digest. -/
def hashPrompt (prompt : String) : String :=
  keccak256Hex (utf8Encode prompt)

/-! ## The Solidity ABI coder for uint256 and uint256 arrays
(the algorithm behind ethers.AbiCoder.defaultAbiCoder) -/

/-- Big-endian byte expansion to a fixed width. -/
def toBE : Nat → Nat → List Nat
  | 0, _ => []
  | n + 1, v => toBE n (v / 256) ++ [v % 256]

/-- Big-endian byte read. -/
def fromBE (l : List Nat) : Nat :=
  l.foldl (fun a b => a * 256 + b) 0

/-- One 32-byte ABI word. -/
def abiWord (v : Nat) : List Nat := toBE 32 v

/-- Errors the ethers ABI coder raises. A negative (or oversized) value for a
uint256 slot fails the coder's bounds assertion. -/
inductive EncodeError where
  | valueOutOfBounds
deriving DecidableEq, Repr

/-- ABI encoding of a single uint256 value, as ethers performs it: a value
outside the 2^256 range (in particular any negative value) is rejected. -/
def abiEncodeUint256 (v : Int) : Except EncodeError (List Nat) :=
  if v < 0 ∨ ((2 ^ 256 : Nat) : Int) ≤ v then .error .valueOutOfBounds
  else .ok (abiWord v.toNat)

/-- ABI encoding of a uint256 array, as ethers performs it: a head word with
the offset 32, the length word, then one word per element; any element outside
the uint256 range (in particular any negative element) is rejected. -/
def abiEncodeUint256Array (vs : List Int) : Except EncodeError (List Nat) :=
  if vs.any (fun v => decide (v < 0 ∨ ((2 ^ 256 : Nat) : Int) ≤ v)) then
    .error .valueOutOfBounds
  else .ok (abiWord 32 ++ abiWord vs.length ++ vs.flatMap (fun v => abiWord v.toNat))

/-- ABI decoding of a single uint256 from bytes. -/
def abiDecodeUint256Bytes (bs : List Nat) : Option Nat :=
  if bs.length = 32 then some (fromBE bs) else none

/-- Decode a run of 32-byte words. -/
def decodeWords : Nat → List Nat → Option (List Nat)
  | 0, _ => some []
  | n + 1, bs =>
    if bs.length < 32 then none
    else (decodeWords n (bs.drop 32)).map (fromBE (bs.take 32) :: ·)

/-- ABI decoding of a uint256 array from bytes: check the head offset, read
the length, decode that many words. -/
def abiDecodeUint256ArrayBytes (bs : List Nat) : Option (List Nat) :=
  if bs.length < 64 then none
  else
    let off := fromBE (bs.take 32)
    let len := fromBE ((bs.drop 32).take 32)
    if off = 32 ∧ bs.length = 64 + 32 * len then decodeWords len (bs.drop 64) else none

/-- ABI decoding of a single uint256 from a 0x-prefixed hex string. -/
def abiDecodeUint256 (s : String) : Option Nat :=
  match s.data with
  | '0' :: 'x' :: rest => (hexToBytes rest).bind abiDecodeUint256Bytes
  | _ => none

/-- ABI decoding of a uint256 array from a 0x-prefixed hex string. -/
def abiDecodeUint256Array (s : String) : Option (List Nat) :=
  match s.data with
  | '0' :: 'x' :: rest => (hexToBytes rest).bind abiDecodeUint256ArrayBytes
  | _ => none

/-! ## encodeActivityPoints (src/utils/crypto.ts) -/

/-- The reward argument: the service passes either a single stringified
integer or an array of them; BigInt conversion yields integers. -/
inductive Points where
  | single (p : Int)
  | arr (ps : List Int)
deriving DecidableEq, Repr

/-- encodeActivityPoints: arrays are ABI-encoded as uint256[] with no
negativity check of their own (the ABI coder's bounds assertion governs);
a single value is checked, a negative one returning the bare 0x sentinel,
a non-negative one being ABI-encoded as uint256. -/
def encodeActivityPoints : Points → Except EncodeError String
  | .arr ps => (abiEncodeUint256Array ps).map hexlify
  | .single p =>
    if p < 0 then .ok (hexlify [])
    else (abiEncodeUint256 p).map hexlify

/-! ## Nonce manager (src/services/nonceManager.ts) -/

/-- The process-wide chainId → nonce map; an absent key is a chain whose
counter was never initialized. -/
def NonceState := String → Option Nat

/-- Store a counter value for one chain. -/
def NonceState.store (st : NonceState) (chainId : String) (n : Nat) : NonceState :=
  fun c => if c = chainId then some n else st c

/-- initializeNonces: every configured chain's counter is seeded with the
ledger's transaction count when the query succeeds (some n), and with the
fallback 0 when the query fails (none). -/
def initializeNonces (results : List (String × Option Nat)) (st : NonceState) : NonceState :=
  results.foldl (fun st r => st.store r.1 (r.2.getD 0)) st

/-- getAndIncrementNonce: read the stored counter, fail if the chain was never
initialized, otherwise return the stored value and store value + 1; the read
and the write are one synchronous step of the single-threaded event loop. -/
def getAndIncrementNonce (chainId : String) (st : NonceState) :
    Except String (Nat × NonceState) :=
  match st chainId with
  | none => .error ("Nonce not initialized for chain " ++ chainId)
  | some n => .ok (n, st.store chainId (n + 1))

/-- One interleaving of allocate calls: each list entry is one call's chain id,
and each call runs as one atomic step. -/
def runAllocs : List String → NonceState → List (String × Except String Nat) × NonceState
  | [], st => ([], st)
  | c :: cs, st =>
    match getAndIncrementNonce c st with
    | .ok (n, st') =>
      let r := runAllocs cs st'
      ((c, .ok n) :: r.1, r.2)
    | .error e =>
      let r := runAllocs cs st
      ((c, .error e) :: r.1, r.2)

/-- The values returned to the allocate calls of one particular chain, in
call order. -/
def resultsFor (x : String) (rs : List (String × Except String Nat)) :
    List (Except String Nat) :=
  (rs.filter (fun p => p.1 = x)).map (·.2)

/-! ## PZERO authorization client (src/services/pzeroAuthService.ts) -/

/-- The PZeroErrorCode values the service uses. -/
inductive PZeroErrorCode where
  | INVALID_API_KEY
  | QUOTA_EXCEEDED
  | INVALID_TIER
  | RATE_LIMITED
  | PZERO_UNAVAILABLE
  | PZERO_TIMEOUT
  | PZERO_ERROR
deriving DecidableEq, Repr

/-- The PZeroError class: classification code, message, optional HTTP status. -/
structure PZeroError where
  code : PZeroErrorCode
  message : String
  statusCode : Option Nat
deriving DecidableEq, Repr

/-- A failed axios call, as the transport reports it: a timeout
(ECONNABORTED / ETIMEDOUT), no response at all, or an HTTP error response
carrying a status and an optional body error message. -/
inductive AxiosFailure where
  | timeout
  | noResponse (message : String)
  | httpError (status : Nat) (errMessage : Option String)
deriving DecidableEq, Repr

/-- The authorization the Gateway returns on success. -/
structure PZeroAuthorization where
  signature : String
  nonce : String
  expiresAt : Nat
deriving DecidableEq, Repr

/-- What one Gateway call produces. -/
inductive GatewayOutcome where
  | ok (auth : PZeroAuthorization)
  | fail (e : AxiosFailure)
deriving DecidableEq, Repr

/-- An error caught inside the retry loop: either an already classified
PZeroError, a raw transport failure, or a plain Error. -/
inductive CaughtError where
  | pzero (e : PZeroError)
  | axios (e : AxiosFailure)
  | generic (message : String)
deriving DecidableEq, Repr

/-- The retry loop's short-circuit test, exactly as written:
error instanceof PZeroError, with a truthy statusCode below 500. -/
def isFatalClientError : CaughtError → Bool
  | .pzero e =>
    match e.statusCode with
    | some sc => decide (sc ≠ 0 ∧ sc < 500)
    | none => false
  | .axios _ => false
  | .generic _ => false

/-- The body of retryWithBackoff's for-loop, indexed by the current attempt i
with the loop bound attempts; the loop runs while i < attempts, rendered
structurally by the fuel argument attempts - i. Alongside the outcome the
loop counts how many times fn was invoked; falling out of the loop produces
the trailing plain Error. The backoff delays do not affect the value and are
omitted. -/
def retryLoop (fn : Nat → Except CaughtError PZeroAuthorization) (attempts i : Nat) :
    Nat → Except CaughtError PZeroAuthorization × Nat
  | 0 => (.error (.generic "Retry logic failed unexpectedly"), 0)
  | fuel + 1 =>
    if i < attempts then
      match fn i with
      | .ok v => (.ok v, 1)
      | .error e =>
        if isFatalClientError e then (.error e, 1)
        else if i = attempts - 1 then (.error e, 1)
        else
          let r := retryLoop fn attempts (i + 1) fuel
          (r.1, r.2 + 1)
    else (.error (.generic "Retry logic failed unexpectedly"), 0)

/-- retryWithBackoff: run the loop from attempt 0; attempts - 0 iterations
remain. -/
def retryWithBackoff (fn : Nat → Except CaughtError PZeroAuthorization)
    (attempts : Nat) : Except CaughtError PZeroAuthorization × Nat :=
  retryLoop fn attempts 0 attempts

/-- handlePZeroApiError: convert whatever the call path raised into a
PZeroError, by the status-code switch for axios errors with a response, the
timeout / no-response checks before it, and the unknown-error fallback for
anything that is not an axios error. -/
def handlePZeroApiError : CaughtError → PZeroError
  | .axios .timeout =>
    ⟨.PZERO_TIMEOUT, "PZERO API request timed out. Please try again.", none⟩
  | .axios (.noResponse _) =>
    ⟨.PZERO_UNAVAILABLE, "Unable to reach PZERO API. Please check your network connection.",
      none⟩
  | .axios (.httpError 401 errMessage) =>
    ⟨.INVALID_API_KEY,
      errMessage.getD "Invalid PZERO API key. Check your PZERO_API_KEY configuration.",
      some 401⟩
  | .axios (.httpError 402 errMessage) =>
    ⟨.QUOTA_EXCEEDED, errMessage.getD "PZERO quota exceeded. Please upgrade your tier.",
      some 402⟩
  | .axios (.httpError 403 errMessage) =>
    ⟨.INVALID_TIER,
      errMessage.getD "This feature is not available in your current PZERO tier.",
      some 403⟩
  | .axios (.httpError 429 errMessage) =>
    ⟨.RATE_LIMITED, errMessage.getD "PZERO rate limit exceeded. Please try again later.",
      some 429⟩
  | .axios (.httpError 503 errMessage) =>
    ⟨.PZERO_UNAVAILABLE, errMessage.getD "PZERO service temporarily unavailable.",
      some 503⟩
  | .axios (.httpError status errMessage) =>
    ⟨.PZERO_ERROR, errMessage.getD "An unexpected error occurred with PZERO API.",
      some status⟩
  | .pzero _ =>
    ⟨.PZERO_ERROR, "An unexpected error occurred while communicating with PZERO.", none⟩
  | .generic _ =>
    ⟨.PZERO_ERROR, "An unexpected error occurred while communicating with PZERO.", none⟩

/-- The request body posted to the Gateway. -/
structure PZeroMintAuthRequest where
  promptHash : String
  author : String
  activityPoints : Points
  signerAddress : String
  chainId : String
  timestamp : Nat
deriving DecidableEq, Repr

/-- requestMintAuthorization: build the request body from the digest and
metadata, run the raw Gateway post under retryWithBackoff, and classify
whatever error comes out of the loop. The Gateway is a function from the
invocation index to an outcome; alongside the result we keep the body that
was sent and the number of Gateway invocations performed. -/
def requestMintAuthorization (gw : Nat → GatewayOutcome) (attempts : Nat)
    (promptHash author : String) (activityPoints : Points) (signerAddress : String)
    (chainId : String) (timestamp : Nat) :
    PZeroMintAuthRequest × Except PZeroError PZeroAuthorization × Nat :=
  let requestBody : PZeroMintAuthRequest :=
    ⟨promptHash, author, activityPoints, signerAddress, chainId, timestamp⟩
  let post : Nat → Except CaughtError PZeroAuthorization := fun i =>
    match gw i with
    | .ok a => .ok a
    | .fail e => .error (.axios e)
  let r := retryWithBackoff post attempts
  match r.1 with
  | .ok a => (requestBody, .ok a, r.2)
  | .error e => (requestBody, .error (handlePZeroApiError e), r.2)

/-! ## Orchestrator (src/services/promptMiningService.ts) -/

/-- The JS test promptOrHash.startsWith('0x'): the first two characters are
0 and x; nothing else about the string is inspected. -/
def startsWith0x (s : String) : Bool :=
  match s.data with
  | '0' :: 'x' :: _ => true
  | _ => false

/-- The status response: the digest used and the ledger's answer. -/
structure PromptStatusResponse where
  promptHash : String
  isMinted : Bool
deriving DecidableEq, Repr

/-- getPromptStatus: an input that starts with 0x is used verbatim as the
digest, anything else is hashed first; the ledger's read-only status query is
the isMinted oracle. -/
def getPromptStatus (isMintedOracle : String → Bool) (promptOrHash : String) :
    PromptStatusResponse :=
  let promptHash := if startsWith0x promptOrHash then promptOrHash else hashPrompt promptOrHash
  ⟨promptHash, isMintedOracle promptHash⟩

/-- A mined transaction receipt. -/
structure TxReceipt where
  hash : String
  blockNumber : Nat
  gasUsed : Nat
deriving DecidableEq, Repr

/-- The externally observable calls one backend-signed mint attempt makes,
in order. -/
inductive MintEvent where
  | checkMinted (promptHash : String)
  | authRequest (body : PZeroMintAuthRequest)
  | submitMint (author promptHash contentURI encodedPoints signature : String)
deriving DecidableEq, Repr

/-- Failures of the mint pipeline. -/
inductive MintError where
  | alreadyMinted (promptHash : String)
  | encoding (e : EncodeError)
  | pzero (e : PZeroError)
  | ledger (message : String)
deriving DecidableEq, Repr

/-- The orchestrator's success payload. -/
structure MintResult where
  transactionHash : String
  promptHash : String
  blockNumber : Nat
  gasUsed : Nat
deriving DecidableEq, Repr

/-- The collaborators of one mint attempt: the ledger status query, the
Gateway, the retry budget, the ledger submission, and the configuration
values (contract address, chain id) plus the current time. -/
structure MintEnv where
  isMinted : String → Bool
  gateway : Nat → GatewayOutcome
  retryAttempts : Nat
  executeMint : String → String → String → String → String → Except String TxReceipt
  promptMinerAddress : String
  chainId : String
  now : Nat

/-- mintPromptForUser (backend-signed / operator-signed mode): hash locally,
check the ledger's mint status and fail fast when the digest is already
recorded, encode the reward, request Gateway authorization with the digest
only, then sign and submit. The event list records each external call made. -/
def mintPromptForUser (env : MintEnv) (prompt author : String)
    (activityPoints : Points) : Except MintError MintResult × List MintEvent :=
  let promptHash := hashPrompt prompt
  if env.isMinted promptHash then
    (.error (.alreadyMinted promptHash), [.checkMinted promptHash])
  else
    match encodeActivityPoints activityPoints with
    | .error e => (.error (.encoding e), [.checkMinted promptHash])
    | .ok encodedPoints =>
      let auth := requestMintAuthorization env.gateway env.retryAttempts promptHash author
        activityPoints env.promptMinerAddress env.chainId env.now
      match auth.2.1 with
      | .error e => (.error (.pzero e), [.checkMinted promptHash, .authRequest auth.1])
      | .ok a =>
        match env.executeMint author promptHash "" encodedPoints a.signature with
        | .error msg =>
          (.error (.ledger msg),
           [.checkMinted promptHash, .authRequest auth.1,
            .submitMint author promptHash "" encodedPoints a.signature])
        | .ok receipt =>
          (.ok ⟨receipt.hash, promptHash, receipt.blockNumber, receipt.gasUsed⟩,
           [.checkMinted promptHash, .authRequest auth.1,
            .submitMint author promptHash "" encodedPoints a.signature])

/-! ## Meta-transaction mode (src/services/promptMiningService.ts,
src/services/blockchainService.ts) -/

/-- The EIP-712 domain of the forwarder on one chain. -/
structure TypedDataDomain where
  name : String
  version : String
  chainId : Nat
  verifyingContract : String
deriving DecidableEq, Repr

/-- The ERC2771 ForwardRequest message to be signed. The source's fields
named from and to are rendered fromAddr and toAddr (both words are reserved
in Lean). -/
structure ForwardRequestData where
  fromAddr : String
  toAddr : String
  value : Nat
  gas : Nat
  nonce : Nat
  deadline : Nat
  data : String
deriving DecidableEq, Repr

/-- Phase A's product: the domain and the message for the external signer. -/
structure MetaTxTypedData where
  domain : TypedDataDomain
  requestForSigning : ForwardRequestData
deriving DecidableEq, Repr

/-- The forwarder contract's on-chain per-signer sequence numbers. -/
structure ForwarderState where
  nonces : String → Nat

/-- Modelled from the spec: the ABI-encoded inner mint call; the SDK builds
it from the digest, the content URI, the encoded reward and the
authorization signature. Its exact byte layout is outside this repository,
so it is embedded as an opaque injective packaging of those four fields. -/
def encodeMintCallData (promptHash contentURI encodedPoints actionSignature : String) :
    String :=
  String.intercalate "|" [promptHash, contentURI, encodedPoints, actionSignature]

/-- Modelled from the spec: the SDK helper getTypedDataForMetaTxMint is not
part of this repository. Per the spec's Phase A it builds the EIP-712
domain/message pair of the forwarding envelope: original sender, target
contract, value 0, the caller's gas limit and deadline, the per-chain
forwarder sequence number currently recorded for the original sender, and
the encoded mint call data. No submission happens here. -/
def sdkGetTypedDataForMetaTxMint (fwd : ForwarderState) (domain : TypedDataDomain)
    (promptMinerAddress fromAddr : String) (gas deadline : Nat)
    (promptHash contentURI encodedPoints actionSignature : String) : MetaTxTypedData :=
  { domain := domain
    requestForSigning :=
      { fromAddr := fromAddr
        toAddr := promptMinerAddress
        value := 0
        gas := gas
        nonce := fwd.nonces fromAddr
        deadline := deadline
        data := encodeMintCallData promptHash contentURI encodedPoints actionSignature } }

/-- blockchainService.getTypedDataForMetaTxMint: delegate to the SDK helper
with an empty contentURI. -/
def getTypedDataForMetaTxMint (fwd : ForwarderState) (domain : TypedDataDomain)
    (promptMinerAddress fromAddr : String) (gas deadline : Nat)
    (promptHash encodedPoints actionSignature : String) : MetaTxTypedData :=
  sdkGetTypedDataForMetaTxMint fwd domain promptMinerAddress fromAddr gas deadline
    promptHash "" encodedPoints actionSignature

/-- What getSignableMintData returns to the frontend. -/
structure SignableMintData where
  promptHash : String
  domain : TypedDataDomain
  requestForSigning : ForwardRequestData
  authSignature : String
deriving DecidableEq, Repr

/-- getSignableMintData (meta-transaction Phase A): hash locally, encode the
reward, request Gateway authorization with the digest only, then build the
EIP-712 signing payload through the SDK. -/
def getSignableMintData (env : MintEnv) (fwd : ForwarderState) (domain : TypedDataDomain)
    (prompt author : String) (activityPoints : Points) (gas deadline : Nat) :
    Except MintError SignableMintData :=
  let promptHash := hashPrompt prompt
  match encodeActivityPoints activityPoints with
  | .error e => .error (.encoding e)
  | .ok encodedPoints =>
    let auth := requestMintAuthorization env.gateway env.retryAttempts promptHash author
      activityPoints env.promptMinerAddress env.chainId env.now
    match auth.2.1 with
    | .error e => .error (.pzero e)
    | .ok a =>
      let typedData := getTypedDataForMetaTxMint fwd domain env.promptMinerAddress author
        gas deadline promptHash encodedPoints a.signature
      .ok ⟨promptHash, typedData.domain, typedData.requestForSigning, a.signature⟩

/-- The relayer's submission record for one executed meta-transaction: the
gas limit sent (the envelope's gas plus the 50,000-unit forwarder overhead
buffer) and the allocator-issued relayer wallet nonce. -/
structure MetaTxReceipt where
  gasLimit : Nat
  walletNonce : Nat
deriving DecidableEq, Repr

/-- executeMetaTxMint (meta-transaction Phase B): allocate a relayer wallet
nonce for the chain through the nonce manager, then submit the forward
request with the 50,000 gas-unit buffer. The forwarder's checks and its
consumption of the envelope nonce are on-chain behavior outside this
repository; modelled from the spec: the forwarder rejects an expired
deadline and an envelope nonce that does not match its stored sequence
number for the original sender, and on success increments that number. -/
def executeMetaTxMint (req : ForwardRequestData) (chainId : String) (blockNow : Nat)
    (fwd : ForwarderState) (ns : NonceState) :
    Except String MetaTxReceipt × ForwarderState × NonceState :=
  match getAndIncrementNonce chainId ns with
  | .error e => (.error ("Meta-transaction execution failed: " ++ e), fwd, ns)
  | .ok (walletNonce, ns') =>
    if req.deadline < blockNow then
      (.error "Meta-transaction expired. The deadline has passed.", fwd, ns')
    else if req.nonce ≠ fwd.nonces req.fromAddr then
      (.error "Invalid signature. The signature does not match the request.", fwd, ns')
    else
      (.ok ⟨req.gas + 50000, walletNonce⟩,
       ⟨fun a => if a = req.fromAddr then fwd.nonces a + 1 else fwd.nonces a⟩, ns')

/-! ## Helper lemmas -/

theorem length_bytesToHex (bs : List Nat) : (bytesToHex bs).length = 2 * bs.length := by
  induction bs with
  | nil => rfl
  | cons b bs ih =>
    simp [bytesToHex, byteToHex] at ih ⊢
    omega

theorem hexVal_hexDigitChar : ∀ d : Nat, d < 16 → hexVal (hexDigitChar d) = some d := by
  decide

theorem hexToBytes_bytesToHex (bs : List Nat) (h : ∀ b ∈ bs, b < 256) :
    hexToBytes (bytesToHex bs) = some bs := by
  induction bs with
  | nil => simp [bytesToHex, hexToBytes]
  | cons b bs ih =>
    have hb : b < 256 := h b (List.mem_cons_self ..)
    have hrest : hexToBytes (bytesToHex bs) = some bs :=
      ih (fun x hx => h x (List.mem_cons_of_mem _ hx))
    have hhi : hexVal (hexDigitChar (b / 16)) = some (b / 16) :=
      hexVal_hexDigitChar _ (by omega)
    have hlo : hexVal (hexDigitChar (b % 16)) = some (b % 16) :=
      hexVal_hexDigitChar _ (by omega)
    simp [bytesToHex, byteToHex] at hrest ⊢
    simp [hexToBytes, hhi, hlo, hrest]
    omega

theorem length_keccak256 (msg : List Nat) : (keccak256 msg).length = 32 := by
  simp [keccak256, laneToBytes]

theorem laneToBytes_lt_256 (x : Nat) : ∀ b ∈ laneToBytes x, b < 256 := by
  intro b hb
  simp [laneToBytes] at hb
  rcases hb with h | h | h | h | h | h | h | h <;> omega

theorem keccak256_lt_256 (msg : List Nat) : ∀ b ∈ keccak256 msg, b < 256 := by
  intro b hb
  simp only [keccak256, List.mem_append] at hb
  rcases hb with ((h | h) | h) | h <;> exact laneToBytes_lt_256 _ _ h

theorem length_toBE (n v : Nat) : (toBE n v).length = n := by
  induction n generalizing v with
  | zero => rfl
  | succ n ih => simp [toBE, ih]

theorem toBE_lt_256 (n v : Nat) : ∀ b ∈ toBE n v, b < 256 := by
  induction n generalizing v with
  | zero => simp [toBE]
  | succ n ih =>
    intro b hb
    simp [toBE] at hb
    rcases hb with h | h
    · exact ih _ _ h
    · omega

theorem fromBE_append_singleton (xs : List Nat) (b : Nat) :
    fromBE (xs ++ [b]) = 256 * fromBE xs + b := by
  simp [fromBE, List.foldl_append]
  ring

theorem fromBE_toBE (n v : Nat) (h : v < 256 ^ n) : fromBE (toBE n v) = v := by
  induction n generalizing v with
  | zero =>
    simp [toBE, fromBE]
    omega
  | succ n ih =>
    have hdiv : v / 256 < 256 ^ n := by
      rw [Nat.div_lt_iff_lt_mul (by norm_num)]
      calc v < 256 ^ (n + 1) := h
        _ = 256 ^ n * 256 := by ring
    rw [toBE, fromBE_append_singleton, ih _ hdiv]
    omega

theorem fromBE_abiWord (v : Nat) (h : v < 2 ^ 256) : fromBE (abiWord v) = v :=
  fromBE_toBE 32 v (by norm_num at h ⊢; omega)

theorem length_abiWord (v : Nat) : (abiWord v).length = 32 := length_toBE 32 v

theorem abiWord_lt_256 (v : Nat) : ∀ b ∈ abiWord v, b < 256 := toBE_lt_256 32 v

theorem abiDecodeUint256Bytes_abiWord (v : Nat) (h : v < 2 ^ 256) :
    abiDecodeUint256Bytes (abiWord v) = some v := by
  simp [abiDecodeUint256Bytes, length_abiWord, fromBE_abiWord v h]

/-- Hex-level decoding of a hexlified byte list reduces to byte-level decoding. -/
theorem abiDecodeUint256_hexlify (bs : List Nat) (h : ∀ b ∈ bs, b < 256) :
    abiDecodeUint256 (hexlify bs) = abiDecodeUint256Bytes bs := by
  show (hexToBytes (bytesToHex bs)).bind abiDecodeUint256Bytes = _
  rw [hexToBytes_bytesToHex bs h]
  rfl

theorem abiDecodeUint256Array_hexlify (bs : List Nat) (h : ∀ b ∈ bs, b < 256) :
    abiDecodeUint256Array (hexlify bs) = abiDecodeUint256ArrayBytes bs := by
  show (hexToBytes (bytesToHex bs)).bind abiDecodeUint256ArrayBytes = _
  rw [hexToBytes_bytesToHex bs h]
  rfl

theorem length_flatMap_abiWord (vs : List Nat) :
    (vs.flatMap abiWord).length = 32 * vs.length := by
  induction vs with
  | nil => rfl
  | cons v vs ih => simp [List.flatMap_cons, ih, length_abiWord]; ring

theorem flatMap_abiWord_lt_256 (vs : List Nat) : ∀ b ∈ vs.flatMap abiWord, b < 256 := by
  intro b hb
  simp only [List.mem_flatMap] at hb
  obtain ⟨v, _, hb⟩ := hb
  exact abiWord_lt_256 v b hb

theorem decodeWords_flatMap_abiWord (vs : List Nat) (h : ∀ v ∈ vs, v < 2 ^ 256) :
    decodeWords vs.length (vs.flatMap abiWord) = some vs := by
  induction vs with
  | nil => rfl
  | cons v vs ih =>
    have hlen : (abiWord v ++ vs.flatMap abiWord).length = 32 + 32 * vs.length := by
      rw [List.length_append, length_abiWord, length_flatMap_abiWord]
    have htake : (abiWord v ++ vs.flatMap abiWord).take 32 = abiWord v :=
      List.take_left' (length_abiWord v)
    have hdrop : (abiWord v ++ vs.flatMap abiWord).drop 32 = vs.flatMap abiWord :=
      List.drop_left' (length_abiWord v)
    have hv : v < 2 ^ 256 := h v (List.mem_cons_self ..)
    have hrest := ih fun x hx => h x (List.mem_cons_of_mem _ hx)
    simp [List.flatMap_cons, decodeWords, hlen, htake, hdrop, hrest, fromBE_abiWord v hv]

theorem abiDecodeUint256ArrayBytes_encode (vs : List Nat) (h : ∀ v ∈ vs, v < 2 ^ 256)
    (hlen : vs.length < 2 ^ 256) :
    abiDecodeUint256ArrayBytes (abiWord 32 ++ abiWord vs.length ++ vs.flatMap abiWord) =
      some vs := by
  rw [List.append_assoc]
  have hl : (abiWord 32 ++ (abiWord vs.length ++ vs.flatMap abiWord)).length =
      64 + 32 * vs.length := by
    simp only [List.length_append, length_abiWord, length_flatMap_abiWord]
    omega
  have htake : (abiWord 32 ++ (abiWord vs.length ++ vs.flatMap abiWord)).take 32 =
      abiWord 32 := List.take_left' (length_abiWord 32)
  have hdrop : (abiWord 32 ++ (abiWord vs.length ++ vs.flatMap abiWord)).drop 32 =
      abiWord vs.length ++ vs.flatMap abiWord := List.drop_left' (length_abiWord 32)
  have htake2 : (abiWord vs.length ++ vs.flatMap abiWord).take 32 = abiWord vs.length :=
    List.take_left' (length_abiWord vs.length)
  have hdrop64 : (abiWord 32 ++ (abiWord vs.length ++ vs.flatMap abiWord)).drop 64 =
      vs.flatMap abiWord := by
    have : (64 : Nat) = 32 + 32 := by norm_num
    rw [this, ← List.drop_drop, hdrop, List.drop_left' (length_abiWord vs.length)]
  rw [abiDecodeUint256ArrayBytes]
  simp only [hl, htake, hdrop, htake2, hdrop64, fromBE_abiWord 32 (by norm_num),
    fromBE_abiWord vs.length hlen]
  rw [if_neg (by omega), if_pos (by simp)]
  exact decodeWords_flatMap_abiWord vs h

/-! ## Nonce allocation: uniqueness and contiguity -/

theorem NonceState.store_same (st : NonceState) (c : String) (n : Nat) :
    st.store c n c = some n := by
  simp [NonceState.store]

theorem NonceState.store_other (st : NonceState) (c x : String) (n : Nat) (h : c ≠ x) :
    st.store c n x = st x := by
  simp only [NonceState.store]
  rw [if_neg (fun hxc => h hxc.symm)]

theorem runAllocs_cons_ok (c : String) (cs : List String) (st st' : NonceState) (n : Nat)
    (h : getAndIncrementNonce c st = .ok (n, st')) :
    runAllocs (c :: cs) st =
      ((c, .ok n) :: (runAllocs cs st').1, (runAllocs cs st').2) := by
  simp only [runAllocs, h]

theorem runAllocs_cons_err (c : String) (cs : List String) (st : NonceState) (e : String)
    (h : getAndIncrementNonce c st = .error e) :
    runAllocs (c :: cs) st =
      ((c, .error e) :: (runAllocs cs st).1, (runAllocs cs st).2) := by
  simp only [runAllocs, h]

theorem resultsFor_cons_self (x : String) (r : Except String Nat)
    (rs : List (String × Except String Nat)) :
    resultsFor x ((x, r) :: rs) = r :: resultsFor x rs := by
  simp [resultsFor]

theorem resultsFor_cons_ne (c x : String) (r : Except String Nat)
    (rs : List (String × Except String Nat)) (h : c ≠ x) :
    resultsFor x ((c, r) :: rs) = resultsFor x rs := by
  simp [resultsFor, h]

/-- Running any interleaving of allocate calls: the calls for a chain whose
counter holds seed receive exactly seed, seed+1, … in call order, and the
counter afterwards holds seed plus the number of those calls. -/
theorem runAllocs_spec (ops : List String) (x : String) :
    ∀ (st : NonceState) (seed : Nat), st x = some seed →
      resultsFor x (runAllocs ops st).1 =
        (List.range (ops.count x)).map (fun i => Except.ok (seed + i)) ∧
      (runAllocs ops st).2 x = some (seed + ops.count x) := by
  induction ops with
  | nil =>
    intro st seed h
    simp [runAllocs, resultsFor, h]
  | cons c cs ih =>
    intro st seed h
    by_cases hc : c = x
    · subst hc
      have halloc : getAndIncrementNonce c st = .ok (seed, st.store c (seed + 1)) := by
        simp [getAndIncrementNonce, h]
      obtain ⟨ih1, ih2⟩ := ih (st.store c (seed + 1)) (seed + 1) (st.store_same c (seed + 1))
      have hstep : ∀ i, seed + (i + 1) = seed + 1 + i := by omega
      rw [runAllocs_cons_ok c cs st _ seed halloc]
      constructor
      · rw [resultsFor_cons_self, ih1, List.count_cons_self,
          List.range_succ_eq_map, List.map_cons, List.map_map]
        congr 1
        refine List.map_congr_left ?_
        intro a _
        simp only [Function.comp_def, Except.ok.injEq]
        omega
      · rw [ih2, List.count_cons_self]
        congr 1
        omega
    · have hcount : (c :: cs).count x = cs.count x :=
        List.count_cons_of_ne (fun hxc => hc hxc.symm) _
      cases hst : st c with
      | none =>
        have halloc : getAndIncrementNonce c st =
            .error ("Nonce not initialized for chain " ++ c) := by
          simp [getAndIncrementNonce, hst]
        obtain ⟨ih1, ih2⟩ := ih st seed h
        rw [runAllocs_cons_err c cs st _ halloc]
        exact ⟨by rw [resultsFor_cons_ne c x _ _ hc, ih1, hcount], by rw [ih2, hcount]⟩
      | some m =>
        have halloc : getAndIncrementNonce c st = .ok (m, st.store c (m + 1)) := by
          simp [getAndIncrementNonce, hst]
        have hkeep : st.store c (m + 1) x = some seed := by
          rw [st.store_other c x (m + 1) hc, h]
        obtain ⟨ih1, ih2⟩ := ih (st.store c (m + 1)) seed hkeep
        rw [runAllocs_cons_ok c cs st _ m halloc]
        exact ⟨by rw [resultsFor_cons_ne c x _ _ hc, ih1, hcount], by rw [ih2, hcount]⟩

/-! ## Authorization client lemmas -/

theorem retryLoop_first_ok (fn : Nat → Except CaughtError PZeroAuthorization)
    (attempts : Nat) (a : PZeroAuthorization) (h0 : fn 0 = .ok a) (h : 0 < attempts) :
    retryLoop fn attempts 0 attempts = (.ok a, 1) := by
  obtain ⟨f, rfl⟩ : ∃ f, attempts = f + 1 := ⟨attempts - 1, by omega⟩
  simp [retryLoop, h0]

theorem requestMintAuthorization_ok (gw : Nat → GatewayOutcome) (attempts : Nat)
    (promptHash author : String) (pts : Points) (signer chainId : String) (ts : Nat)
    (a : PZeroAuthorization) (h0 : gw 0 = .ok a) (h : 0 < attempts) :
    requestMintAuthorization gw attempts promptHash author pts signer chainId ts =
      (⟨promptHash, author, pts, signer, chainId, ts⟩, .ok a, 1) := by
  have hloop := retryLoop_first_ok
    (fun i => match gw i with
      | GatewayOutcome.ok a => Except.ok a
      | GatewayOutcome.fail e => Except.error (CaughtError.axios e))
    attempts a (by simp [h0]) h
  simp only [requestMintAuthorization, retryWithBackoff] at hloop ⊢
  rw [hloop]

theorem requestMintAuthorization_fst (gw : Nat → GatewayOutcome) (attempts : Nat)
    (promptHash author : String) (pts : Points) (signer chainId : String) (ts : Nat) :
    (requestMintAuthorization gw attempts promptHash author pts signer chainId ts).1 =
      ⟨promptHash, author, pts, signer, chainId, ts⟩ := by
  simp only [requestMintAuthorization, retryWithBackoff]
  split <;> rfl

/-! ## Claim theorems -/

/-- C1: the spec says a fatal classification (HTTP 401/402/403) short-circuits
the retries and the Gateway is called exactly once. In the code the retry
loop wraps the raw axios post, so the error caught inside the loop is never
a PZeroError — classification happens only after the loop — and the loop's
own 4xx short-circuit test (its comment says client errors are not retried)
never fires. Evaluated with the Gateway answering HTTP 401 on every attempt
and the default attempt budget 3: the Gateway is invoked 3 times, not once,
and the classified invalid-credentials error is raised only after
exhaustion, as the classified form of the last failure. -/
theorem claim_C1_fatal_class_is_retried :
    requestMintAuthorization (fun _ => .fail (.httpError 401 none)) 3
        "0x1234" "0xauthor" (.single 10) "0xminer" "31337" 1700000000000 =
      (⟨"0x1234", "0xauthor", .single 10, "0xminer", "31337", 1700000000000⟩,
        .error ⟨.INVALID_API_KEY,
          "Invalid PZERO API key. Check your PZERO_API_KEY configuration.", some 401⟩,
        3) := by
  rfl

/-- C2: for every chain x whose counter holds seed, any interleaving of
allocate calls hands the calls for x exactly the values seed, seed + 1, …,
seed + N - 1 in order (N the number of those calls) — no duplicates, no
gaps — and leaves the counter at seed + N: each allocation returns the
stored counter and increments it as one atomic unit. -/
theorem claim_C2_alloc_unique_contiguous (ops : List String) (x : String)
    (st : NonceState) (seed : Nat) (h : st x = some seed) :
    resultsFor x (runAllocs ops st).1 =
      (List.range (ops.count x)).map (fun i => Except.ok (seed + i)) ∧
    (runAllocs ops st).2 x = some (seed + ops.count x) :=
  runAllocs_spec ops x st seed h

theorem claim_C2_alloc_unique_contiguous_witness :
    ((fun c => if c = "31337" then some 5 else none : NonceState) "31337" = some 5) ∧
    (resultsFor "31337" (runAllocs ["31337", "84532", "31337", "31337"]
        (fun c => if c = "31337" then some 5 else none)).1 =
      (List.range ((["31337", "84532", "31337", "31337"] : List String).count "31337")).map
        (fun i => Except.ok (5 + i)) ∧
    (runAllocs ["31337", "84532", "31337", "31337"]
        (fun c => if c = "31337" then some 5 else none)).2 "31337" =
      some (5 + (["31337", "84532", "31337", "31337"] : List String).count "31337")) :=
  ⟨rfl, claim_C2_alloc_unique_contiguous _ _ _ 5 rfl⟩

/-- C4 counterexample: encoding the reward list [-1] does not return the 0x
"no reward" sentinel — it fails with the ABI coder's bounds error; the
claim's "for arrays as well as single values, encoding never throws on
negative input" is false on the array path. -/
theorem claim_C4_counterexample :
    encodeActivityPoints (.arr [(-1 : Int)]) = .error .valueOutOfBounds := by
  rfl

/-- C4 amended: a negative single reward value encodes to the empty 0x
sentinel with no error, but a reward list containing a negative value makes
encoding fail with the ABI coder's value-out-of-bounds error (the array
branch has no negativity check of its own). -/
theorem claim_C4_negative_single_sentinel_array_throws (p : Int) (hp : p < 0)
    (ps : List Int) (q : Int) (hq : q ∈ ps) (hqneg : q < 0) :
    encodeActivityPoints (.single p) = .ok "0x" ∧
    encodeActivityPoints (.arr ps) = .error .valueOutOfBounds := by
  constructor
  · show (if p < 0 then Except.ok (hexlify ([] : List Nat))
        else (abiEncodeUint256 p).map hexlify) = Except.ok "0x"
    rw [if_pos hp]
    rfl
  · have hany : ps.any (fun v => decide (v < 0 ∨ ((2 ^ 256 : Nat) : Int) ≤ v)) = true :=
      List.any_eq_true.mpr ⟨q, hq, by simp [hqneg]⟩
    show (abiEncodeUint256Array ps).map hexlify = .error .valueOutOfBounds
    rw [abiEncodeUint256Array, if_pos hany]
    rfl

theorem claim_C4_negative_witness :
    ((-5 : Int) < 0 ∧ (-2 : Int) ∈ ([3, -2] : List Int) ∧ (-2 : Int) < 0) ∧
    (encodeActivityPoints (.single (-5)) = .ok "0x" ∧
     encodeActivityPoints (.arr [3, -2]) = .error .valueOutOfBounds) :=
  ⟨⟨by decide, by decide, by decide⟩,
   claim_C4_negative_single_sentinel_array_throws (-5) (by decide) [3, -2] (-2)
     (by decide) (by decide)⟩

/-- C10: getPromptStatus uses an input that starts with the two characters
0x verbatim as the digest — no hashing, no length or hex-validity check —
and hashes any other input first; the returned promptHash field equals the
digest so chosen. -/
theorem claim_C10_digest_choice (oracle : String → Bool) (s : String) :
    (startsWith0x s = true → getPromptStatus oracle s = ⟨s, oracle s⟩) ∧
    (startsWith0x s = false →
      getPromptStatus oracle s = ⟨hashPrompt s, oracle (hashPrompt s)⟩) := by
  constructor <;> intro h <;> simp [getPromptStatus, h]

set_option maxRecDepth 8000 in
/-- C3: the classifier maps each Gateway outcome exactly per the spec's
taxonomy — transport timeout to the retryable timeout error, no response to
gateway-unavailable, 401 to invalid-credentials, 402 to quota-exceeded, 403
to tier-not-allowed, 429 to rate-limited, 503 to gateway-unavailable, and
any other status to the generic gateway error. But the taxonomy's
"fatal, never retried" annotations are not honored: classification runs
only after the retry loop, so with the Gateway answering HTTP 402 on every
attempt and an attempt budget of 2 the Gateway is called twice before the
quota-exceeded error surfaces. -/
theorem claim_C3_classification (m : Option String) (status : Nat)
    (h401 : status ≠ 401) (h402 : status ≠ 402) (h403 : status ≠ 403)
    (h429 : status ≠ 429) (h503 : status ≠ 503) :
    handlePZeroApiError (.axios .timeout) =
      ⟨.PZERO_TIMEOUT, "PZERO API request timed out. Please try again.", none⟩ ∧
    handlePZeroApiError (.axios (.noResponse "connection refused")) =
      ⟨.PZERO_UNAVAILABLE,
        "Unable to reach PZERO API. Please check your network connection.", none⟩ ∧
    handlePZeroApiError (.axios (.httpError 401 m)) =
      ⟨.INVALID_API_KEY,
        m.getD "Invalid PZERO API key. Check your PZERO_API_KEY configuration.",
        some 401⟩ ∧
    handlePZeroApiError (.axios (.httpError 402 m)) =
      ⟨.QUOTA_EXCEEDED, m.getD "PZERO quota exceeded. Please upgrade your tier.",
        some 402⟩ ∧
    handlePZeroApiError (.axios (.httpError 403 m)) =
      ⟨.INVALID_TIER,
        m.getD "This feature is not available in your current PZERO tier.", some 403⟩ ∧
    handlePZeroApiError (.axios (.httpError 429 m)) =
      ⟨.RATE_LIMITED, m.getD "PZERO rate limit exceeded. Please try again later.",
        some 429⟩ ∧
    handlePZeroApiError (.axios (.httpError 503 m)) =
      ⟨.PZERO_UNAVAILABLE, m.getD "PZERO service temporarily unavailable.", some 503⟩ ∧
    handlePZeroApiError (.axios (.httpError status m)) =
      ⟨.PZERO_ERROR, m.getD "An unexpected error occurred with PZERO API.",
        some status⟩ ∧
    requestMintAuthorization (fun _ => .fail (.httpError 402 (some "quota used up"))) 2
        "0xdigest" "0xauthor" (.single 1) "0xminer" "31337" 42 =
      (⟨"0xdigest", "0xauthor", .single 1, "0xminer", "31337", 42⟩,
        .error ⟨.QUOTA_EXCEEDED, "quota used up", some 402⟩, 2) := by
  refine ⟨rfl, rfl, rfl, rfl, rfl, rfl, rfl, ?_, rfl⟩
  exact handlePZeroApiError.eq_8 status m h401 h402 h403 h429 h503

theorem claim_C3_classification_witness :
    ((500 : Nat) ≠ 401 ∧ (500 : Nat) ≠ 402 ∧ (500 : Nat) ≠ 403 ∧ (500 : Nat) ≠ 429 ∧
      (500 : Nat) ≠ 503) ∧
    handlePZeroApiError (.axios (.httpError 500 (some "server exploded"))) =
      ⟨.PZERO_ERROR, "server exploded", some 500⟩ :=
  ⟨⟨by decide, by decide, by decide, by decide, by decide⟩,
   (claim_C3_classification (some "server exploded") 500 (by decide) (by decide)
       (by decide) (by decide) (by decide)).2.2.2.2.2.2.2.1⟩

/-- C5: the Gateway request is a function of the digest, beneficiary, reward
amount, signer context, chain id and timestamp only — requestMintAuthorization
builds exactly those six fields, so the raw prompt text never appears in the
body; and two prompts with equal digests drive mintPromptForUser through
identical runs (in particular, identical Gateway request content for equal
timestamps). -/
theorem claim_C5_only_digest_sent (gw : Nat → GatewayOutcome) (attempts : Nat)
    (p1 p2 author : String) (pts : Points) (signer chainId : String) (ts : Nat)
    (env : MintEnv) (h : hashPrompt p1 = hashPrompt p2) :
    (requestMintAuthorization gw attempts (hashPrompt p1) author pts signer
        chainId ts).1 =
      ⟨hashPrompt p1, author, pts, signer, chainId, ts⟩ ∧
    mintPromptForUser env p1 author pts = mintPromptForUser env p2 author pts := by
  refine ⟨requestMintAuthorization_fst gw attempts _ author pts signer chainId ts, ?_⟩
  simp only [mintPromptForUser, h]

theorem claim_C5_only_digest_sent_witness :
    (hashPrompt "What is AI?" = hashPrompt "What is AI?") ∧
    ((requestMintAuthorization (fun _ => .ok ⟨"0xsig", "7", 99⟩) 3
        (hashPrompt "What is AI?") "0xauthor" (.single 10) "0xminer" "31337" 1234).1 =
      ⟨hashPrompt "What is AI?", "0xauthor", .single 10, "0xminer", "31337", 1234⟩ ∧
    mintPromptForUser
        ⟨fun _ => false, fun _ => .ok ⟨"0xsig", "7", 99⟩, 3,
          fun _ _ _ _ _ => .ok ⟨"0xtx", 12, 21000⟩, "0xminer", "31337", 1234⟩
        "What is AI?" "0xauthor" (.single 10) =
      mintPromptForUser
        ⟨fun _ => false, fun _ => .ok ⟨"0xsig", "7", 99⟩, 3,
          fun _ _ _ _ _ => .ok ⟨"0xtx", 12, 21000⟩, "0xminer", "31337", 1234⟩
        "What is AI?" "0xauthor" (.single 10)) :=
  ⟨rfl, claim_C5_only_digest_sent (fun _ => .ok ⟨"0xsig", "7", 99⟩) 3 _ _ "0xauthor"
    (.single 10) "0xminer" "31337" 1234
    ⟨fun _ => false, fun _ => .ok ⟨"0xsig", "7", 99⟩, 3,
      fun _ _ _ _ _ => .ok ⟨"0xtx", 12, 21000⟩, "0xminer", "31337", 1234⟩ rfl⟩

/-- C6: when the ledger's status query already reports the digest as minted,
the operator-signed pipeline fails with the already-minted error right after
the status check: the run's whole event trace is that one ledger read — no
Gateway authorization request and no transaction submission happen. -/
theorem claim_C6_already_minted_short_circuit (env : MintEnv) (prompt author : String)
    (pts : Points) (h : env.isMinted (hashPrompt prompt) = true) :
    mintPromptForUser env prompt author pts =
      (.error (.alreadyMinted (hashPrompt prompt)),
        [.checkMinted (hashPrompt prompt)]) ∧
    (∀ body, MintEvent.authRequest body ∉ (mintPromptForUser env prompt author pts).2) ∧
    (∀ a ph cu ep sig,
      MintEvent.submitMint a ph cu ep sig ∉ (mintPromptForUser env prompt author pts).2) := by
  have hrun : mintPromptForUser env prompt author pts =
      (.error (.alreadyMinted (hashPrompt prompt)),
        [.checkMinted (hashPrompt prompt)]) := by
    simp [mintPromptForUser, h]
  refine ⟨hrun, ?_, ?_⟩ <;> intros <;> rw [hrun] <;> simp

theorem claim_C6_already_minted_witness :
    ((⟨fun _ => true, fun _ => .ok ⟨"0xsig", "1", 0⟩, 3,
        fun _ _ _ _ _ => .error "unreachable", "0xminer", "31337", 0⟩ : MintEnv).isMinted
        (hashPrompt "What is AI?") = true) ∧
    mintPromptForUser
        ⟨fun _ => true, fun _ => .ok ⟨"0xsig", "1", 0⟩, 3,
          fun _ _ _ _ _ => .error "unreachable", "0xminer", "31337", 0⟩
        "What is AI?" "0xauthor" (.single 10) =
      (.error (.alreadyMinted (hashPrompt "What is AI?")),
        [.checkMinted (hashPrompt "What is AI?")]) :=
  ⟨rfl,
   (claim_C6_already_minted_short_circuit
       ⟨fun _ => true, fun _ => .ok ⟨"0xsig", "1", 0⟩, 3,
         fun _ _ _ _ _ => .error "unreachable", "0xminer", "31337", 0⟩
       "What is AI?" "0xauthor" (.single 10) rfl).1⟩

/-- C7: hashPrompt is a total pure function of the content string alone: it
never fails (any string, the empty string included, has a digest), equal
contents give equal digests, the digest is the keccak256 hash of the UTF-8
byte encoding of the content, and it always has the fixed shape of a
0x-prefixed 64-hex-character string (66 characters). -/
theorem claim_C7_hash_total_deterministic (c1 c2 : String) (h : c1 = c2) :
    hashPrompt c1 = keccak256Hex (utf8Encode c1) ∧
    hashPrompt c1 = hashPrompt c2 ∧
    (hashPrompt c1).length = 66 ∧
    (hashPrompt c1).data.take 2 = ['0', 'x'] := by
  refine ⟨rfl, by rw [h], ?_, rfl⟩
  show (String.mk ('0' :: 'x' :: bytesToHex (keccak256 (utf8Encode c1)))).length = 66
  show ('0' :: 'x' :: bytesToHex (keccak256 (utf8Encode c1))).length = 66
  rw [List.length_cons, List.length_cons, length_bytesToHex, length_keccak256]

theorem claim_C7_hash_total_deterministic_witness :
    ("" : String) = "" ∧
    (hashPrompt "" = keccak256Hex (utf8Encode "") ∧
      hashPrompt "" = hashPrompt "" ∧
      (hashPrompt "").length = 66 ∧
      (hashPrompt "").data.take 2 = ['0', 'x']) :=
  ⟨rfl, claim_C7_hash_total_deterministic "" "" rfl⟩

theorem claim_C10_digest_choice_witness :
    (startsWith0x "0xZZ not hex" = true ∧
      getPromptStatus (fun _ => false) "0xZZ not hex" = ⟨"0xZZ not hex", false⟩) ∧
    (startsWith0x "plain prompt" = false ∧
      getPromptStatus (fun _ => false) "plain prompt" =
        ⟨hashPrompt "plain prompt", false⟩) :=
  ⟨⟨rfl, (claim_C10_digest_choice (fun _ => false) "0xZZ not hex").1 rfl⟩,
   ⟨rfl, (claim_C10_digest_choice (fun _ => false) "plain prompt").2 rfl⟩⟩

/-- Successful Phase A evaluation: with an encodable reward, a Gateway that
answers the first call, and a positive attempt budget, getSignableMintData
returns the envelope built on the forwarder's current sequence number for
the author. -/
theorem getSignableMintData_ok (env : MintEnv) (auth : PZeroAuthorization)
    (fwd : ForwarderState) (domain : TypedDataDomain) (prompt author : String)
    (pts : Points) (enc : String) (gas deadline : Nat)
    (hgw : env.gateway 0 = .ok auth) (hatt : 0 < env.retryAttempts)
    (henc : encodeActivityPoints pts = .ok enc) :
    getSignableMintData env fwd domain prompt author pts gas deadline =
      .ok ⟨hashPrompt prompt, domain,
        ⟨author, env.promptMinerAddress, 0, gas, fwd.nonces author, deadline,
          encodeMintCallData (hashPrompt prompt) "" enc auth.signature⟩,
        auth.signature⟩ := by
  simp only [getSignableMintData, henc,
    requestMintAuthorization_ok env.gateway env.retryAttempts (hashPrompt prompt) author
      pts env.promptMinerAddress env.chainId env.now auth hgw hatt]
  rfl

/-- Successful Phase B evaluation: the relayer wallet nonce is allocated
from the chain's counter, the submission carries the 50,000 gas buffer, and
the forwarder consumes the author's envelope sequence number. -/
theorem executeMetaTxMint_ok (req : ForwardRequestData) (chainId : String)
    (blockNow k : Nat) (fwd : ForwarderState) (ns : NonceState)
    (hns : ns chainId = some k) (hdl : ¬ req.deadline < blockNow)
    (hnonce : req.nonce = fwd.nonces req.fromAddr) :
    executeMetaTxMint req chainId blockNow fwd ns =
      (.ok ⟨req.gas + 50000, k⟩,
       ⟨fun a => if a = req.fromAddr then fwd.nonces a + 1 else fwd.nonces a⟩,
       ns.store chainId (k + 1)) := by
  have halloc : getAndIncrementNonce chainId ns = .ok (k, ns.store chainId (k + 1)) := by
    simp [getAndIncrementNonce, hns]
  simp only [executeMetaTxMint, halloc]
  rw [if_neg hdl, if_neg (by simp [hnonce])]

/-- C8: meta-transaction Phase A run twice with identical inputs, with the
first envelope carried through Phase B in between, produces envelopes whose
forwarder sequence numbers differ by exactly 1; the Phase B execution
consumes exactly one allocator slot (the chain counter moves from k to
k + 1 and the relayer transaction uses nonce k) and submits with the
50,000-unit gas buffer. -/
theorem claim_C8_forwarder_nonce_advances_by_one (env : MintEnv)
    (auth : PZeroAuthorization) (fwd : ForwarderState) (domain : TypedDataDomain)
    (ns : NonceState) (prompt author : String) (pts : Points) (enc : String)
    (gas deadline blockNow k : Nat)
    (hgw : env.gateway 0 = .ok auth) (hatt : 0 < env.retryAttempts)
    (henc : encodeActivityPoints pts = .ok enc)
    (hns : ns env.chainId = some k) (hdl : blockNow ≤ deadline) :
    ∃ d1 r fwd2 ns2 d2,
      getSignableMintData env fwd domain prompt author pts gas deadline = .ok d1 ∧
      executeMetaTxMint d1.requestForSigning env.chainId blockNow fwd ns =
        (.ok r, fwd2, ns2) ∧
      getSignableMintData env fwd2 domain prompt author pts gas deadline = .ok d2 ∧
      d2.requestForSigning.nonce = d1.requestForSigning.nonce + 1 ∧
      r.walletNonce = k ∧ ns2 env.chainId = some (k + 1) ∧ r.gasLimit = gas + 50000 := by
  refine ⟨_, _, _, _, _,
    getSignableMintData_ok env auth fwd domain prompt author pts enc gas deadline
      hgw hatt henc,
    executeMetaTxMint_ok _ env.chainId blockNow k fwd ns hns (by simp; omega) rfl,
    getSignableMintData_ok env auth _ domain prompt author pts enc gas deadline
      hgw hatt henc,
    by simp, rfl, NonceState.store_same ns env.chainId (k + 1), rfl⟩

theorem claim_C8_forwarder_nonce_witness :
    ((⟨fun _ => false, fun _ => .ok ⟨"0xsig", "1", 0⟩, 3,
        fun _ _ _ _ _ => .error "unused", "0xminer", "31337", 77⟩ : MintEnv).gateway 0 =
      .ok ⟨"0xsig", "1", 0⟩ ∧
     0 < (⟨fun _ => false, fun _ => .ok ⟨"0xsig", "1", 0⟩, 3,
        fun _ _ _ _ _ => .error "unused", "0xminer", "31337", 77⟩ : MintEnv).retryAttempts ∧
     encodeActivityPoints (.single 10) = .ok (hexlify (abiWord 10)) ∧
     ((fun c => if c = "31337" then some 9 else none : NonceState) "31337" = some 9) ∧
     (500 : Nat) ≤ 3600) ∧
    (∃ d1 r fwd2 ns2 d2,
      getSignableMintData
          ⟨fun _ => false, fun _ => .ok ⟨"0xsig", "1", 0⟩, 3,
            fun _ _ _ _ _ => .error "unused", "0xminer", "31337", 77⟩
          ⟨fun _ => 4⟩ ⟨"Forwarder", "1", 31337, "0xfwd"⟩ "What is AI?" "0xauthor"
          (.single 10) 500000 3600 = .ok d1 ∧
      executeMetaTxMint d1.requestForSigning
          (⟨fun _ => false, fun _ => .ok ⟨"0xsig", "1", 0⟩, 3,
            fun _ _ _ _ _ => .error "unused", "0xminer", "31337", 77⟩ : MintEnv).chainId
          500 ⟨fun _ => 4⟩ (fun c => if c = "31337" then some 9 else none) =
        (.ok r, fwd2, ns2) ∧
      getSignableMintData
          ⟨fun _ => false, fun _ => .ok ⟨"0xsig", "1", 0⟩, 3,
            fun _ _ _ _ _ => .error "unused", "0xminer", "31337", 77⟩
          fwd2 ⟨"Forwarder", "1", 31337, "0xfwd"⟩ "What is AI?" "0xauthor"
          (.single 10) 500000 3600 = .ok d2 ∧
      d2.requestForSigning.nonce = d1.requestForSigning.nonce + 1 ∧
      r.walletNonce = 9 ∧
      ns2 (⟨fun _ => false, fun _ => .ok ⟨"0xsig", "1", 0⟩, 3,
            fun _ _ _ _ _ => .error "unused", "0xminer", "31337", 77⟩ : MintEnv).chainId =
        some (9 + 1) ∧
      r.gasLimit = 500000 + 50000) :=
  ⟨⟨rfl, by norm_num, rfl, rfl, by norm_num⟩,
   claim_C8_forwarder_nonce_advances_by_one
     ⟨fun _ => false, fun _ => .ok ⟨"0xsig", "1", 0⟩, 3,
       fun _ _ _ _ _ => .error "unused", "0xminer", "31337", 77⟩
     ⟨"0xsig", "1", 0⟩ ⟨fun _ => 4⟩ ⟨"Forwarder", "1", 31337, "0xfwd"⟩
     (fun c => if c = "31337" then some 9 else none) "What is AI?" "0xauthor"
     (.single 10) (hexlify (abiWord 10)) 500000 3600 500 9 rfl (by norm_num) rfl rfl
     (by norm_num)⟩

/-- C9: decoding the canonical fixed-width ABI encoding that
encodeActivityPoints produces reproduces the original value(s) exactly, for
every uint256-range non-negative single value and every list of such values
(a list short enough for its length word, as any real array is). -/
theorem claim_C9_encode_decode_roundtrip (v : Nat) (hv : v < 2 ^ 256)
    (vs : List Nat) (hvs : ∀ x ∈ vs, x < 2 ^ 256) (hlen : vs.length < 2 ^ 256) :
    (∃ s, encodeActivityPoints (.single (v : Int)) = .ok s ∧
      abiDecodeUint256 s = some v) ∧
    (∃ s, encodeActivityPoints (.arr (vs.map (fun x : Nat => (x : Int)))) = .ok s ∧
      abiDecodeUint256Array s = some vs) := by
  constructor
  · refine ⟨hexlify (abiWord v), ?_, ?_⟩
    · have hnn : ¬((v : Int) < 0) := by omega
      have hub : ¬(((2 ^ 256 : Nat) : Int) ≤ (v : Int)) := by
        exact_mod_cast not_le.mpr hv
      show (if (v : Int) < 0 then Except.ok (hexlify ([] : List Nat))
          else (abiEncodeUint256 (v : Int)).map hexlify) = _
      rw [if_neg hnn, abiEncodeUint256, if_neg (by push_neg; exact ⟨le_of_not_lt hnn, lt_of_not_le hub⟩)]
      simp only [Int.toNat_natCast]
      rfl
    · rw [abiDecodeUint256_hexlify (abiWord v) (abiWord_lt_256 v)]
      exact abiDecodeUint256Bytes_abiWord v hv
  · have hany : (vs.map (fun x : Nat => (x : Int))).any
        (fun q => decide (q < 0 ∨ ((2 ^ 256 : Nat) : Int) ≤ q)) = false := by
      rw [List.any_eq_false]
      intro q hq
      obtain ⟨x, hx, rfl⟩ := List.mem_map.mp hq
      have hxb : ¬(((2 ^ 256 : Nat) : Int) ≤ (x : Int)) :=
        by exact_mod_cast not_le.mpr (hvs x hx)
      simp only [decide_eq_true_eq, not_or]
      exact ⟨by omega, hxb⟩
    have hflat : (vs.map (fun x : Nat => (x : Int))).flatMap (fun q => abiWord q.toNat) =
        vs.flatMap abiWord := by
      rw [List.flatMap_map]
      simp
    have hvalid : ∀ b ∈ abiWord 32 ++ abiWord vs.length ++ vs.flatMap abiWord, b < 256 := by
      intro b hb
      simp only [List.mem_append] at hb
      rcases hb with (hb | hb) | hb
      · exact abiWord_lt_256 32 b hb
      · exact abiWord_lt_256 vs.length b hb
      · exact flatMap_abiWord_lt_256 vs b hb
    refine ⟨hexlify (abiWord 32 ++ abiWord vs.length ++ vs.flatMap abiWord), ?_, ?_⟩
    · show (abiEncodeUint256Array (vs.map (fun x : Nat => (x : Int)))).map hexlify = _
      rw [abiEncodeUint256Array, if_neg (by rw [hany]; simp)]
      rw [List.length_map, hflat]
      rfl
    · rw [abiDecodeUint256Array_hexlify _ hvalid]
      exact abiDecodeUint256ArrayBytes_encode vs hvs hlen

theorem claim_C9_encode_decode_roundtrip_witness :
    ((10 : Nat) < 2 ^ 256 ∧ (∀ x ∈ ([10, 15] : List Nat), x < 2 ^ 256) ∧
      ([10, 15] : List Nat).length < 2 ^ 256) ∧
    ((∃ s, encodeActivityPoints (.single ((10 : Nat) : Int)) = .ok s ∧
        abiDecodeUint256 s = some 10) ∧
     (∃ s, encodeActivityPoints
          (.arr (([10, 15] : List Nat).map (fun x : Nat => (x : Int)))) = .ok s ∧
        abiDecodeUint256Array s = some [10, 15])) :=
  ⟨⟨by norm_num, by norm_num, by norm_num⟩,
   claim_C9_encode_decode_roundtrip 10 (by norm_num) [10, 15] (by norm_num)
     (by norm_num)⟩

end PromptMining
